import Mathlib

/-!
Verification development for the signal/slot dispatch core of the
superqt repository (file `superqt/signal/_signal.py`).

The Python code is shallowly embedded: `inspect.Parameter` data is
represented by the `Param` structure (kind, presence of a default,
optional annotated type), declared signal signatures by `List Param`,
callables by `PyCallable` (a plain function or a bound method, each
carrying an identity and its introspected call signature), and the
per-instance dispatcher `SignalInstance` by a structure holding the
declared signatures, the owning instance, the stored slot list and the
blocked flag.  Exceptions are modelled by returning `Option PyErr`
paired with the post-call object state, mirroring that a Python `raise`
leaves the receiver in whatever state it had at the raise site.
`issubclass` on concrete classes is abstracted by a relation
`issub : Nat → Nat → Bool` over class identities.
-/

/-- `inspect.Parameter.kind` values. -/
inductive ParamKind where
  | POSITIONAL_ONLY
  | POSITIONAL_OR_KEYWORD
  | VAR_POSITIONAL
  | KEYWORD_ONLY
  | VAR_KEYWORD
deriving DecidableEq, Repr

/-- A Python type expression usable as a parameter annotation: a concrete
class (identified by a numeral) or a `Union` of concrete classes. -/
inductive PyType where
  | cls (id : Nat)
  | union (ids : List Nat)
deriving DecidableEq, Repr

/-- One `inspect.Parameter`: its kind, whether it has a default value
(`default is not Parameter.empty`), and its optional type annotation
(`none` models `Parameter.empty`). -/
structure Param where
  kind : ParamKind
  hasDefault : Bool
  anno : Option PyType
deriving DecidableEq, Repr

/-- Embeds `_is_subclass(left, right)` for a class `right`: a `Union` on
the left succeeds when any branch is a subclass of `right`; a concrete
class uses the abstract subclass relation `issub`. -/
def pyIsSubclass (issub : Nat → Nat → Bool) (left : PyType) (right : Nat) : Bool :=
  match left with
  | .cls a => issub a right
  | .union xs => xs.any fun a => issub a right

/-- Embeds `_parameter_types_match(function, spec, func_sig)`: zips the
function parameters with the spec parameters; an unannotated function
parameter is always allowed; otherwise its annotation must be a subclass
of the spec slot type.  (String annotations, which the source resolves
with `get_type_hints`, are modelled as already-resolved `PyType`s; spec
parameters built by `Signal._build_signature` always carry a class.) -/
def parameter_types_match (issub : Nat → Nat → Bool)
    (fsig spec : List Param) : Bool :=
  (List.zip fsig spec).all fun p =>
    match p.1.anno with
    | none => true
    | some fa =>
      match p.2.anno with
      | some (.cls c) => pyIsSubclass issub fa c
      | _ => true

/-- Embeds `_acceptable_posarg_range(sig, forbid_required_kwarg)`.
Returns `(required, required + optional)` or an error when a required
KEYWORD_ONLY parameter is present and forbidden (Python raises
`ValueError` there). -/
def acceptable_posarg_range (sig : List Param) (forbid_required_kwarg : Bool := true) :
    Except String (Nat × Nat) :=
  go sig 0 0
where
  go : List Param → Nat → Nat → Except String (Nat × Nat)
  | [], required, optional => .ok (required, required + optional)
  | param :: rest, required, optional =>
    match param.kind with
    | .POSITIONAL_ONLY =>
      if param.hasDefault then go rest required (optional + 1)
      else go rest (required + 1) optional
    | .POSITIONAL_OR_KEYWORD =>
      if param.hasDefault then go rest required (optional + 1)
      else go rest (required + 1) optional
    | .VAR_POSITIONAL => go rest required (optional + 10 ^ 10)
    | .KEYWORD_ONLY =>
      if !param.hasDefault && forbid_required_kwarg then
        .error "Required KEYWORD_ONLY parameters not allowed"
      else go rest required optional
    | .VAR_KEYWORD => go rest required optional

/-- A Python callable passed to `connect`/`disconnect`: a plain function
(strong reference, identified by a numeral) or a bound method
(`ismethod` true, receiver object identity plus method name).  `sig` is
the result of `inspect.signature` on the callable. -/
inductive PyCallable where
  | plainFn (id : Nat) (sig : List Param)
  | boundMethod (selfId : Nat) (name : String) (sig : List Param)
deriving DecidableEq, Repr

def PyCallable.sig : PyCallable → List Param
  | .plainFn _ s => s
  | .boundMethod _ _ s => s

/-- A stored (normalized) callback: `NormedCallback` in the source — a
strongly-referenced callable, or a `(weakref(receiver), method name)`
pair. -/
inductive NormedCallback where
  | strong (id : Nat)
  | weakMethod (refId : Nat) (name : String)
deriving DecidableEq, Repr

/-- An argument acceptable where the source accepts either a raw
callable or an already-normalized tuple (as in the dead-slot pruning of
`emit`). -/
inductive SlotSpec where
  | py (c : PyCallable)
  | normed (n : NormedCallback)
deriving DecidableEq, Repr

/-- Embeds `SignalInstance._normalize_slot`: a bound method becomes a
weak `(receiver, name)` pair; an already weak pair and a plain callable
are returned unchanged. -/
def normalize_slot : SlotSpec → NormedCallback
  | .py (.plainFn id _) => .strong id
  | .py (.boundMethod s n _) => .weakMethod s n
  | .normed n => n

/-- A raised Python exception, tagged by class. -/
inductive PyErr where
  | typeError (msg : String)
  | valueError (msg : String)
deriving DecidableEq, Repr

/-- The `unique` argument of `connect` (`Union[bool, str]`). -/
inductive UniqueArg where
  | bool (b : Bool)
  | str (s : String)
deriving DecidableEq, Repr

/-- Python truthiness of a `unique` value. -/
def UniqueArg.truthy : UniqueArg → Bool
  | .bool b => b
  | .str s => !(s == "")

/-- `unique == "raise"`. -/
def UniqueArg.isRaiseStr : UniqueArg → Bool
  | .str s => s == "raise"
  | .bool _ => false

/-- A stored subscription: normalized callback plus stored max-arity. -/
abbrev StoredSlot := NormedCallback × Nat

/-- Embeds the per-instance dispatcher `SignalInstance`: declared
signatures, owning instance identity (`None` modelled as `none`), the
ordered slot list, and the blocked flag. -/
structure SignalInstance where
  signatures : List (List Param)
  instanceObj : Option Nat
  slots : List StoredSlot
  isBlocked : Bool
deriving DecidableEq, Repr

/-- Embeds `SignalInstance._slot_index`: index of the first stored slot
whose normalized callback equals `normed` (`-1` in the source is
rendered as `none`). -/
def slot_index (slots : List StoredSlot) (normed : NormedCallback) : Option Nat :=
  match slots with
  | [] => none
  | p :: rest =>
    if p.1 = normed then some 0
    else (slot_index rest normed).map fun n => n + 1

/-- Embeds `SignalInstance.__contains__`. -/
def containsSlot (si : SignalInstance) (slot : SlotSpec) : Bool :=
  (slot_index si.slots (normalize_slot slot)).isSome

/-- Stable insertion of a signature into a list sorted by decreasing
parameter count (equal counts keep their earlier-first order, as with
Python stable `sorted(..., reverse=True)`). -/
def insertDesc (x : List Param) : List (List Param) → List (List Param)
  | [] => [x]
  | y :: ys => if x.length < y.length then y :: insertDesc x ys else x :: y :: ys

/-- `sorted(self.signatures, key=lambda x: len(x.parameters), reverse=True)`. -/
def sortDesc : List (List Param) → List (List Param)
  | [] => []
  | x :: xs => insertDesc x (sortDesc xs)

/-- Embeds the `for spec in sorted(...)` matching loop of `connect`:
returns the first spec (in the given order) that is compatible with the
slot, together with `maxargs` for the slot, or `none` when every spec
fails (the `for ... else` branch).  A spec fails when
`_acceptable_posarg_range` raises, when `minargs > len(spec.parameters)`,
or when `check_types` is set and the parameter types do not match. -/
def trySpecs (issub : Nat → Nat → Bool) (slotSig : List Param) (check_types : Bool) :
    List (List Param) → Option (List Param × Nat)
  | [] => none
  | spec :: rest =>
    match acceptable_posarg_range slotSig with
    | .error _ => trySpecs issub slotSig check_types rest
    | .ok (minargs, maxargs) =>
      if minargs > spec.length then trySpecs issub slotSig check_types rest
      else if check_types && !parameter_types_match issub slotSig spec then
        trySpecs issub slotSig check_types rest
      else some (spec, maxargs)

/-- The argument given to `connect`: possibly not a callable at all. -/
inductive ConnectArg where
  | notCallable (id : Nat)
  | callable (c : PyCallable)
deriving DecidableEq, Repr

/-- Embeds `SignalInstance.connect(slot, check_types, unique)`.  The
result pairs the raised exception (if any) with the post-call state of
the instance; the slot list is appended only after all validation. -/
def connect (issub : Nat → Nat → Bool) (si : SignalInstance) (slot : ConnectArg)
    (check_types : Bool := false) (unique : UniqueArg := .bool false) :
    Option PyErr × SignalInstance :=
  match slot with
  | .notCallable _ => (some (.typeError "Cannot connect to non-callable object"), si)
  | .callable c =>
    if unique.truthy && containsSlot si (.py c) then
      if unique.isRaiseStr then
        (some (.valueError "Slot already connect"), si)
      else (none, si)
    else
      match trySpecs issub c.sig check_types (sortDesc si.signatures) with
      | none => (some (.valueError "Cannot connect slot: no matching signature"), si)
      | some (_, maxargs) =>
        (none, { si with slots := si.slots ++ [(normalize_slot (.py c), maxargs)] })

/-- Embeds `SignalInstance.disconnect(slot, missing_ok)`. -/
def disconnect (si : SignalInstance) (slot : Option SlotSpec) (missing_ok : Bool := true) :
    Option PyErr × SignalInstance :=
  match slot with
  | none => (none, { si with slots := [] })
  | some sp =>
    match slot_index si.slots (normalize_slot sp) with
    | some idx => (none, { si with slots := si.slots.eraseIdx idx })
    | none =>
      if !missing_ok then (some (.valueError "slot is not connected"), si)
      else (none, si)

/-- Embeds `SignalInstance.block(should_block)`. -/
def block (si : SignalInstance) (should_block : Bool := true) : SignalInstance :=
  { si with isBlocked := should_block }

/-- `SignalBlocker.__enter__`: blocks the target. -/
def SignalBlocker.enter (target : SignalInstance) : SignalInstance :=
  block target true

/-- `SignalBlocker.__exit__`: unconditionally unblocks the target. -/
def SignalBlocker.exitCM (target : SignalInstance) : SignalInstance :=
  block target false

/-- A `with target.blocked():` statement around `body`.  The boolean in
the body result flags an escaping exception; `__exit__` runs on both the
normal and the exceptional path, as in Python. -/
def withBlocker (si : SignalInstance) (body : SignalInstance → SignalInstance × Bool) :
    SignalInstance × Bool :=
  let inside := body (SignalBlocker.enter si)
  (SignalBlocker.exitCM inside.1, inside.2)

/-- Identity of a `SignalInstance` in the emission world model. -/
abbrev SigId := Nat

/-- One observable event during emission: a callback invocation (with
the exact positional arguments passed and the value the callback would
see from `Signal.current_emitter()`), or an explicit
`Signal.current_emitter()` observation made by a callback. -/
inductive TraceEntry where
  | invoked (cb : NormedCallback) (args : List Nat) (emitter : Option SigId)
  | observed (emitter : Option SigId) (senderObj : Option Nat)
deriving DecidableEq, Repr

/-- What a callback body does when invoked, as a straight-line action
list: query the current emitter, raise, trigger a nested `emit`, or
disconnect a slot from some instance. -/
inductive CbStep where
  | observe
  | raiseErr
  | emitOn (target : SigId) (args : List Nat)
  | disconnectOn (target : SigId) (slot : SlotSpec)
deriving DecidableEq, Repr

/-- Fixed code of the program: each normalized callback's body, and
which methods exist on which (live) receiver objects. -/
structure Env where
  behavior : NormedCallback → List CbStep
  methodExists : Nat → String → Bool

/-- Mutable state crossed by an emission: every `SignalInstance` (by
id), which receiver objects are still alive (weakref liveness), the
class-level `Signal._current_emitter`, and the event trace. -/
structure World where
  instances : SigId → SignalInstance
  alive : Nat → Bool
  currentEmitter : Option SigId
  trace : List TraceEntry

/-- `Signal.sender()`: the `instance` of the current emitter, else
`None`. -/
def sender (w : World) : Option Nat :=
  match w.currentEmitter with
  | none => none
  | some sid => (w.instances sid).instanceObj

/-- Replace instance `sid` in the world. -/
def setInst (w : World) (sid : SigId) (si : SignalInstance) : World :=
  { w with instances := fun j => if j = sid then si else w.instances j }

/-- Resolving a stored slot at emission time: a strong callback always
resolves; a weak `(receiver, name)` pair resolves only when the receiver
is alive and still has the method.  `none` models a dead slot queued for
removal. -/
def resolveCb (env : Env) (w : World) : NormedCallback → Option (List CbStep)
  | .strong id => some (env.behavior (.strong id))
  | .weakMethod r n =>
    if w.alive r then
      if env.methodExists r n then some (env.behavior (.weakMethod r n)) else none
    else none

/-- The dead-slot pruning pass at the end of `emit`:
`for slot in rem: self.disconnect(slot)` (with default `missing_ok`). -/
def pruneAll (sid : SigId) (rem : List NormedCallback) (w : World) : World :=
  rem.foldl (fun wa s =>
    setInst wa sid (disconnect (wa.instances sid) (some (.normed s)) true).2) w

/-- The three mutually recursive activities of emission, interleaved
through one fuel-indexed interpreter: a whole `emit` call, the slot loop
inside it (by index over the live list, as Python `for` does), and the
execution of one callback body. -/
inductive EmitTask where
  | emit (sid : SigId) (args : List Nat)
  | loop (sid : SigId) (args : List Nat) (i : Nat) (rem : List NormedCallback)
  | steps (ss : List CbStep)

/-- Result of an emission activity: final world, pending-removal list
(meaningful for `loop`), and whether an exception is propagating. -/
structure TaskOut where
  w : World
  rem : List NormedCallback
  raised : Bool

/-- Fueled interpreter for `SignalInstance.emit`.  `emit`: returns
immediately when blocked; otherwise sets `Signal._current_emitter` to
itself, runs the slot loop, restores the previous emitter (the `finally`
of `Signal._emitting`), and — only when no exception propagates — prunes
the dead slots collected in `rem`.  `loop`: reads the live slot list;
a slot that fails to resolve is queued on `rem` and skipped; a live one
is invoked with `args` truncated to its stored max-arity, and a raising
callback aborts the loop.  `steps`: runs one callback body.  Fuel
exhaustion yields `none`. -/
def runTask (env : Env) : Nat → EmitTask → World → Option TaskOut
  | 0, _, _ => none
  | fuel + 1, task, w =>
    match task with
    | .emit sid args =>
      if (w.instances sid).isBlocked then some ⟨w, [], false⟩
      else
        let prev := w.currentEmitter
        (runTask env fuel (.loop sid args 0 []) { w with currentEmitter := some sid }).bind
          fun o =>
            let w3 : World := { o.w with currentEmitter := prev }
            if o.raised then some ⟨w3, [], true⟩
            else some ⟨pruneAll sid o.rem w3, [], false⟩
    | .loop sid args i rem =>
      let slots := (w.instances sid).slots
      if h : i < slots.length then
        let p := slots.get ⟨i, h⟩
        match resolveCb env w p.1 with
        | none => runTask env fuel (.loop sid args (i + 1) (rem ++ [p.1])) w
        | some body =>
          let w1 : World :=
            { w with trace := w.trace ++ [TraceEntry.invoked p.1 (args.take p.2) w.currentEmitter] }
          (runTask env fuel (.steps body) w1).bind fun o =>
            if o.raised then some ⟨o.w, rem, true⟩
            else runTask env fuel (.loop sid args (i + 1) rem) o.w
      else some ⟨w, rem, false⟩
    | .steps ss =>
      match ss with
      | [] => some ⟨w, [], false⟩
      | s :: rest =>
        match s with
        | .observe =>
          runTask env fuel (.steps rest)
            { w with trace := w.trace ++ [TraceEntry.observed w.currentEmitter (sender w)] }
        | .raiseErr => some ⟨w, [], true⟩
        | .emitOn t2 a2 =>
          (runTask env fuel (.emit t2 a2) w).bind fun o =>
            if o.raised then some ⟨o.w, [], true⟩
            else runTask env fuel (.steps rest) o.w
        | .disconnectOn t2 sp =>
          runTask env fuel (.steps rest)
            (setInst w t2 (disconnect (w.instances t2) (some sp) true).2)

/-- `SignalInstance.emit(*args)` on instance `sid`: final world and
whether an exception propagated to the caller (`none` = out of fuel). -/
def emitW (env : Env) (fuel : Nat) (sid : SigId) (args : List Nat) (w : World) :
    Option (World × Bool) :=
  (runTask env fuel (.emit sid args) w).map fun o => (o.w, o.raised)

/-- Reference list function: remove the first stored slot whose
callback equals `s` (what one `disconnect(slot)` does to the list). -/
def eraseFirstBy (s : NormedCallback) : List StoredSlot → List StoredSlot
  | [] => []
  | p :: rest => if p.1 = s then rest else p :: eraseFirstBy s rest

/-- The dead slots of a stored-slot list, in order, with multiplicity. -/
def deadOf (env : Env) (w : World) (l : List StoredSlot) : List NormedCallback :=
  (l.filter fun p => (resolveCb env w p.1).isNone).map Prod.fst

/-- The invocation events produced by one tame pass over `l` (all
callbacks either dead or with empty bodies): live slots in order, each
with truncated arguments and emitter `ce`. -/
def liveEvents (env : Env) (w : World) (args : List Nat) (ce : Option SigId)
    (l : List StoredSlot) : List TraceEntry :=
  (l.filter fun p => !(resolveCb env w p.1).isNone).map fun p =>
    TraceEntry.invoked p.1 (args.take p.2) ce

/-! ### Concrete fixtures used by counterexamples and witnesses -/

/-- A concrete subclass relation on class identities: reflexivity only
(every class is a subclass of itself). -/
def issub0 : Nat → Nat → Bool := fun a b => a == b

/-- A required positional-only parameter, unannotated. -/
def pReq : Param := ⟨.POSITIONAL_ONLY, false, none⟩

/-- An optional (defaulted) positional-or-keyword parameter. -/
def pOpt : Param := ⟨.POSITIONAL_OR_KEYWORD, true, none⟩

/-- A dispatcher declaring one 1-parameter signature, no subscribers. -/
def si1 : SignalInstance := ⟨[[pReq]], some 0, [], false⟩

/-- A callback `def cb1(a=None, b=None)`: zero required, two optional
positional parameters. -/
def cb1 : PyCallable := .plainFn 7 [pOpt, pOpt]

/-- The environment in which every callback body is empty and every
method exists. -/
def env0 : Env := ⟨fun _ => [], fun _ _ => true⟩

/-- The world holding the result of connecting `cb1` on `si1` at id 0,
with every receiver alive. -/
def wC1 : World :=
  ⟨fun _ => (connect issub0 si1 (.callable cb1)).2, fun _ => true, none, []⟩

/-- A dispatcher with one nullary signature and callback 5 already
connected. -/
def si2 : SignalInstance := ⟨[[]], some 0, [(.strong 5, 0)], false⟩

/-- The already-connected nullary callback of `si2`. -/
def cb2 : PyCallable := .plainFn 5 []

/-- A dispatcher that is blocked before a `blocked()` guard is entered. -/
def siB : SignalInstance := ⟨[[]], some 0, [], true⟩

/-- Channel declared with `(int,)`-like signature, no subscribers yet. -/
def siC : SignalInstance := ⟨[[pReq]], some 99, [], false⟩

/-- `def f(): ...` — a 0-argument callback. -/
def fcb : PyCallable := .plainFn 1 []

/-- `def g(x): ...` — a 1-argument callback. -/
def gcb : PyCallable := .plainFn 2 [pReq]

/-- `def h(x): ...` — another 1-argument callback. -/
def hcb : PyCallable := .plainFn 3 [pReq]

/-- `siC` after connecting `fcb`, `gcb`, `hcb` in that order. -/
def siC3 : SignalInstance :=
  (connect issub0
    (connect issub0 (connect issub0 siC (.callable fcb)).2 (.callable gcb)).2
    (.callable hcb)).2

/-- World holding `siC3` at id 0. -/
def wC4 : World := ⟨fun _ => siC3, fun _ => true, none, []⟩

/-- A dispatcher holding a live strong slot, a bound-method slot whose
receiver (object 8) is destroyed, and another live strong slot. -/
def si5 : SignalInstance :=
  ⟨[[pReq]], some 0, [(.strong 1, 1), (.weakMethod 8 "m", 1), (.strong 2, 0)], false⟩

/-- World for the dead-receiver scenario: object 8 is dead. -/
def w5 : World := ⟨fun _ => si5, fun r => !(r == 8), none, []⟩

/-- Subscriber of channel 0 in the nested-emission scenarios. -/
def x6 : NormedCallback := .strong 11

/-- Subscriber of channel 1 in the nested-emission scenarios. -/
def y6 : NormedCallback := .strong 12

/-- Channel S1 (id 0), owned by instance 100, with subscriber `x6`. -/
def si6a : SignalInstance := ⟨[[pReq]], some 100, [(x6, 1)], false⟩

/-- Channel S2 (id 1), owned by instance 200, with subscriber `y6`. -/
def si6b : SignalInstance := ⟨[[pReq]], some 200, [(y6, 1)], false⟩

/-- `x6` triggers a nested `emit` on channel 1 and then queries the
current emitter; `y6` queries the current emitter while running. -/
def env6 : Env :=
  ⟨fun c => if c = x6 then [.emitOn 1 [7], .observe] else [.observe], fun _ _ => true⟩

/-- World with S1 at id 0 and S2 at id 1 and no emission in progress. -/
def w6 : World := ⟨fun j => if j = 0 then si6a else si6b, fun _ => true, none, []⟩

/-- Variant of `env6` in which `y6` raises inside the nested emission. -/
def env6r : Env :=
  ⟨fun c => if c = x6 then [.emitOn 1 [7], .observe] else [.raiseErr], fun _ _ => true⟩

/-- Same-channel nesting: `x6` disconnects itself from channel 0, then
re-emits channel 0 (which now reaches only `y6`), then queries the
emitter. -/
def env6s : Env :=
  ⟨fun c => if c = x6 then [.disconnectOn 0 (.normed x6), .emitOn 0 [7], .observe]
            else [.observe], fun _ _ => true⟩

/-- Channel 0 with subscribers `x6` then `y6`, for same-channel nesting. -/
def si6s : SignalInstance := ⟨[[pReq]], some 100, [(x6, 1), (y6, 1)], false⟩

/-- World for the same-channel nesting scenario. -/
def w6s : World := ⟨fun j => if j = 0 then si6s else si6b, fun _ => true, none, []⟩

/-- A channel declared with a 2-parameter signature. -/
def si7 : SignalInstance := ⟨[[pReq, pReq]], some 0, [], false⟩

/-- A 1-required-argument callback, compatible with `si7`. -/
def cb7ok : PyCallable := .plainFn 21 [pReq]

/-- A 3-required-argument callback, incompatible with `si7`. -/
def cb7bad : PyCallable := .plainFn 22 [pReq, pReq, pReq]

/-- A dispatcher with a single subscription to callback 5, used for the
disconnect claims. -/
def si8 : SignalInstance := ⟨[[]], some 0, [(.strong 5, 0), (.strong 6, 0)], false⟩

/-- A dispatcher with an empty subscription list. -/
def siEmpty : SignalInstance := ⟨[[]], some 0, [], false⟩

/-! ### Helper lemmas about slot lookup and removal -/

theorem slot_index_eq_none_iff (s : NormedCallback) :
    ∀ l : List StoredSlot, slot_index l s = none ↔ ∀ p ∈ l, ¬(p.1 = s) := by
  intro l
  induction l with
  | nil => simp [slot_index]
  | cons p rest ih =>
    by_cases hp : p.1 = s
    · simp [slot_index, hp]
    · simp [slot_index, hp, Option.map_eq_none', ih]

theorem eraseFirstBy_of_none (s : NormedCallback) :
    ∀ l : List StoredSlot, slot_index l s = none → eraseFirstBy s l = l := by
  intro l
  induction l with
  | nil => intro _; rfl
  | cons p rest ih =>
    intro h
    rw [slot_index_eq_none_iff] at h
    have hp : ¬(p.1 = s) := h p (List.mem_cons_self p rest)
    have hrest : slot_index rest s = none := by
      rw [slot_index_eq_none_iff]
      exact fun q hq => h q (List.mem_cons_of_mem p hq)
    simp [eraseFirstBy, hp, ih hrest]

theorem eraseIdx_of_slot_index (s : NormedCallback) :
    ∀ (l : List StoredSlot) (i : Nat), slot_index l s = some i →
      l.eraseIdx i = eraseFirstBy s l := by
  intro l
  induction l with
  | nil => intro i h; simp [slot_index] at h
  | cons p rest ih =>
    intro i h
    by_cases hp : p.1 = s
    · simp [slot_index, hp] at h
      subst h
      simp [List.eraseIdx, eraseFirstBy, hp]
    · simp [slot_index, hp] at h
      obtain ⟨j, hj, hji⟩ := h
      subst hji
      simp [List.eraseIdx, eraseFirstBy, hp, ih j hj]

theorem disconnect_state (si : SignalInstance) (sp : SlotSpec) (mok : Bool) :
    (disconnect si (some sp) mok).2
      = { si with slots := eraseFirstBy (normalize_slot sp) si.slots } := by
  unfold disconnect
  cases h : slot_index si.slots (normalize_slot sp) with
  | none =>
    have he := eraseFirstBy_of_none (normalize_slot sp) si.slots h
    cases si
    by_cases hm : mok <;> simp_all
  | some i =>
    simp only [h]
    simp [eraseIdx_of_slot_index (normalize_slot sp) si.slots i h]

theorem countP_eraseFirstBy (s : NormedCallback) :
    ∀ l : List StoredSlot,
      List.countP (fun p => decide (p.1 = s)) (eraseFirstBy s l)
        = List.countP (fun p => decide (p.1 = s)) l - 1 := by
  intro l
  induction l with
  | nil => rfl
  | cons p rest ih =>
    by_cases hp : p.1 = s
    · simp [eraseFirstBy, hp, List.countP_cons]
    · simp [eraseFirstBy, hp, List.countP_cons, ih]

theorem slot_index_none_of_countP_zero (s : NormedCallback) (l : List StoredSlot)
    (h : List.countP (fun p => decide (p.1 = s)) l = 0) : slot_index l s = none := by
  rw [slot_index_eq_none_iff]
  intro p hp
  have := (List.countP_eq_zero).mp h p hp
  simpa using this

/-- C8: `disconnect()` with no argument clears all subscriptions;
`disconnect(cb)` removes only the first subscription matching the
normalized `cb`, and when `cb` matched exactly one subscription,
`cb in dispatcher` is false afterwards; when nothing matches,
`missing_ok=True` makes the call a no-op while `missing_ok=False`
raises a NotConnected `ValueError`. -/
theorem C8_disconnect_semantics (si : SignalInstance) (sp : SlotSpec) (mok : Bool) :
    disconnect si none mok = (none, { si with slots := [] })
    ∧ (disconnect si (some sp) mok).2.slots = eraseFirstBy (normalize_slot sp) si.slots
    ∧ (List.countP (fun p => decide (p.1 = normalize_slot sp)) si.slots = 1 →
        containsSlot (disconnect si (some sp) true).2 sp = false)
    ∧ (containsSlot si sp = false → disconnect si (some sp) true = (none, si))
    ∧ (containsSlot si sp = false →
        disconnect si (some sp) false = (some (.valueError "slot is not connected"), si)) := by
  refine ⟨rfl, by rw [disconnect_state], ?_, ?_, ?_⟩
  · intro h1
    have h2 := countP_eraseFirstBy (normalize_slot sp) si.slots
    rw [h1] at h2
    have hz : List.countP (fun p => decide (p.1 = normalize_slot sp))
        ((disconnect si (some sp) true).2).slots = 0 := by
      rw [disconnect_state]
      exact h2
    unfold containsSlot
    rw [slot_index_none_of_countP_zero _ _ hz]
    rfl
  · intro h
    have hn : slot_index si.slots (normalize_slot sp) = none := by
      unfold containsSlot at h
      cases hx : slot_index si.slots (normalize_slot sp) with
      | none => rfl
      | some i => rw [hx] at h; simp at h
    simp only [disconnect]
    rw [hn]
    simp
  · intro h
    have hn : slot_index si.slots (normalize_slot sp) = none := by
      unfold containsSlot at h
      cases hx : slot_index si.slots (normalize_slot sp) with
      | none => rfl
      | some i => rw [hx] at h; simp at h
    simp only [disconnect]
    rw [hn]
    simp

theorem C8_witness :
    disconnect si8 none true = (none, { si8 with slots := [] })
    ∧ containsSlot (disconnect si8 (some (.normed (.strong 5))) true).2
        (.normed (.strong 5)) = false
    ∧ disconnect siEmpty (some (.normed (.strong 5))) true = (none, siEmpty)
    ∧ disconnect siEmpty (some (.normed (.strong 5))) false
        = (some (.valueError "slot is not connected"), siEmpty) :=
  ⟨(C8_disconnect_semantics si8 (.normed (.strong 5)) true).1,
   (C8_disconnect_semantics si8 (.normed (.strong 5)) true).2.2.1 (by decide),
   (C8_disconnect_semantics siEmpty (.normed (.strong 5)) true).2.2.2.1 (by decide),
   (C8_disconnect_semantics siEmpty (.normed (.strong 5)) true).2.2.2.2 (by decide)⟩

/-- C10: `disconnect()` with no argument on an empty subscription list
succeeds as a no-op, leaving the list empty (unlike Qt, which raises). -/
theorem C10_clear_empty_noop (si : SignalInstance) (mok : Bool) (h : si.slots = []) :
    disconnect si none mok = (none, si) := by
  cases si
  simp_all [disconnect]

theorem C10_witness : disconnect siEmpty none true = (none, siEmpty) :=
  C10_clear_empty_noop siEmpty true rfl

/-- C9: `connect` is atomic on failure — whenever it raises, the
dispatcher state (in particular its subscription list) is exactly what
it was before the call. -/
theorem C9_connect_atomic_on_failure (issub : Nat → Nat → Bool) (si : SignalInstance)
    (slot : ConnectArg) (check_types : Bool) (unique : UniqueArg) (e : PyErr)
    (h : (connect issub si slot check_types unique).1 = some e) :
    (connect issub si slot check_types unique).2 = si := by
  cases slot with
  | notCallable id => rfl
  | callable c =>
    simp only [connect] at h ⊢
    by_cases hu : (unique.truthy && containsSlot si (.py c)) = true
    · rw [if_pos hu] at h ⊢
      by_cases hr : unique.isRaiseStr = true
      · rw [if_pos hr]
      · rw [if_neg hr] at h
        simp at h
    · rw [if_neg hu] at h ⊢
      cases ht : trySpecs issub c.sig check_types (sortDesc si.signatures) with
      | none => rfl
      | some pr =>
        obtain ⟨sp2, mx⟩ := pr
        rw [ht] at h
        simp at h

theorem C9_witness : (connect issub0 si1 (.notCallable 3) false (.bool false)).2 = si1 :=
  C9_connect_atomic_on_failure issub0 si1 (.notCallable 3) false (.bool false)
    (.typeError "Cannot connect to non-callable object") (by decide)

/-- C2 counterexample: with `cb2` already connected to `si2`, calling
`connect(cb2, unique="error")` does NOT raise — it silently returns with
the list unchanged, because the source only recognizes the literal
string `"raise"`.  The claim says this call raises a ValueError. -/
theorem C2_counterexample :
    connect issub0 si2 (.callable cb2) false (.str "error") = (none, si2) := by
  decide

/-- C2 (amended): with the callback already connected,
`connect(cb, unique="raise")` raises the DuplicateSubscription
`ValueError`; `connect(cb, unique=True)` — and any other truthy `unique`
value, including the string `"error"` — returns without adding a second
subscription; in every case the subscription list is unchanged, so a
callback that was connected exactly once beforehand still has exactly
one subscription. -/
theorem C2_amended_unique (issub : Nat → Nat → Bool) (si : SignalInstance)
    (c : PyCallable) (check_types : Bool) (h : containsSlot si (.py c) = true) :
    connect issub si (.callable c) check_types (.str "raise")
        = (some (.valueError "Slot already connect"), si)
    ∧ connect issub si (.callable c) check_types (.bool true) = (none, si)
    ∧ connect issub si (.callable c) check_types (.str "error") = (none, si) := by
  have hr : UniqueArg.truthy (.str "raise") = true := by decide
  have he : UniqueArg.truthy (.str "error") = true := by decide
  have hrr : UniqueArg.isRaiseStr (.str "raise") = true := by decide
  have her : UniqueArg.isRaiseStr (.str "error") = false := by decide
  refine ⟨?_, ?_, ?_⟩ <;>
    simp only [connect, hr, he, her, hrr, UniqueArg.truthy, UniqueArg.isRaiseStr,
      h, Bool.and_self, Bool.and_true, Bool.true_and, if_true] <;> simp

theorem C2_witness :
    connect issub0 si2 (.callable cb2) false (.str "raise")
        = (some (.valueError "Slot already connect"), si2)
    ∧ connect issub0 si2 (.callable cb2) false (.bool true) = (none, si2)
    ∧ connect issub0 si2 (.callable cb2) false (.str "error") = (none, si2) :=
  C2_amended_unique issub0 si2 cb2 false (by decide)

/-- C3 counterexample: a dispatcher that is blocked before the
`blocked()` guard is entered is UNBLOCKED after leaving it — the guard
does not restore the prior suppression state, contradicting the claim. -/
theorem C3_counterexample :
    ¬((withBlocker siB fun s => (s, false)).1.isBlocked = siB.isBlocked) := by
  decide

/-- C3 (amended): the scoped guard returned by `blocked()` sets the
suppression flag to true on entry and unconditionally sets it to false
on exit — regardless of the prior value, and also when an exception
escapes the guarded scope (the body result flag is passed through with
`__exit__` still run).  In particular a dispatcher that was blocked
before entering the guard is unblocked, not blocked, after leaving it. -/
theorem C3_amended_blocker (si : SignalInstance)
    (body : SignalInstance → SignalInstance × Bool) :
    (SignalBlocker.enter si).isBlocked = true
    ∧ (withBlocker si body).1.isBlocked = false
    ∧ (withBlocker si body).2 = (body (SignalBlocker.enter si)).2 := by
  exact ⟨rfl, rfl, rfl⟩

/-! ### Helper lemmas about signature matching -/

theorem mem_insertDesc (x y : List Param) :
    ∀ l : List (List Param), (y ∈ insertDesc x l ↔ y = x ∨ y ∈ l) := by
  intro l
  induction l with
  | nil => simp [insertDesc]
  | cons z zs ih =>
    by_cases hc : x.length < z.length
    · simp only [insertDesc, if_pos hc, List.mem_cons, ih]
      tauto
    · simp [insertDesc, if_neg hc]

theorem mem_sortDesc (y : List Param) :
    ∀ l : List (List Param), (y ∈ sortDesc l ↔ y ∈ l) := by
  intro l
  induction l with
  | nil => simp [sortDesc]
  | cons x xs ih => simp [sortDesc, mem_insertDesc, ih]

theorem trySpecs_some_spec (issub : Nat → Nat → Bool) (slotSig : List Param) (ct : Bool) :
    ∀ (specs : List (List Param)) (spec : List Param) (maxargs : Nat),
      trySpecs issub slotSig ct specs = some (spec, maxargs) →
      spec ∈ specs ∧ ∃ minargs,
        acceptable_posarg_range slotSig = .ok (minargs, maxargs) ∧ minargs ≤ spec.length := by
  intro specs
  induction specs with
  | nil => intro spec maxargs h; simp [trySpecs] at h
  | cons s rest ih =>
    intro spec maxargs h
    simp only [trySpecs] at h
    split at h
    · have := ih spec maxargs h
      exact ⟨List.mem_cons_of_mem s this.1, this.2⟩
    · rename_i mn mx heq
      split at h
      · have := ih spec maxargs h
        exact ⟨List.mem_cons_of_mem s this.1, this.2⟩
      · rename_i hgt
        split at h
        · have := ih spec maxargs h
          exact ⟨List.mem_cons_of_mem s this.1, this.2⟩
        · simp only [Option.some.injEq, Prod.mk.injEq] at h
          obtain ⟨hs, hm⟩ := h
          subst hs
          subst hm
          exact ⟨List.mem_cons_self _ _, ⟨mn, heq, by omega⟩⟩

/-- C7: on a channel declared with a single two-parameter signature, a
callback whose acceptable positional-argument range is defined (so it
has no required keyword-only parameters) connects successfully whenever
its minimum required positional count is at most 2, and `connect` raises
the IncompatibleSignature `ValueError` synchronously whenever that
minimum is at least 3. -/
theorem C7_two_param_arity (issub : Nat → Nat → Bool) (si : SignalInstance)
    (c : PyCallable) (spec : List Param)
    (hsig : si.signatures = [spec]) (hlen : spec.length = 2) :
    (∀ minargs maxargs, acceptable_posarg_range c.sig = .ok (minargs, maxargs) →
        minargs ≤ 2 → (connect issub si (.callable c)).1 = none)
    ∧ (∀ minargs maxargs, acceptable_posarg_range c.sig = .ok (minargs, maxargs) →
        3 ≤ minargs →
        connect issub si (.callable c)
          = (some (.valueError "Cannot connect slot: no matching signature"), si)) := by
  have hsort : sortDesc si.signatures = [spec] := by rw [hsig]; rfl
  constructor
  · intro mn mx hr hle
    simp only [connect, UniqueArg.truthy, Bool.false_and, Bool.false_eq_true, if_false,
      hsort]
    simp only [trySpecs, hr, hlen]
    rw [if_neg (by omega)]
    simp
  · intro mn mx hr hge
    simp only [connect, UniqueArg.truthy, Bool.false_and, Bool.false_eq_true, if_false,
      hsort]
    simp only [trySpecs, hr, hlen]
    rw [if_pos (by omega)]

theorem C7_witness :
    (connect issub0 si7 (.callable cb7ok)).1 = none
    ∧ connect issub0 si7 (.callable cb7bad)
        = (some (.valueError "Cannot connect slot: no matching signature"), si7) :=
  ⟨(C7_two_param_arity issub0 si7 cb7ok [pReq, pReq] rfl rfl).1 1 1 (by rfl) (by decide),
   (C7_two_param_arity issub0 si7 cb7bad [pReq, pReq] rfl rfl).2 3 3 (by rfl) (by decide)⟩

/-- C1 counterexample: channel `si1` declares one 1-parameter signature;
callback `cb1` takes two optional positional parameters (range `(0, 2)`).
`connect` matches the 1-parameter signature but stores max-arity 2 — the
callback's own maximum — not the matched signature's parameter count 1;
consequently `emit(5, 6)` on that dispatcher passes the callback 2
arguments, more than the matched signature declares. -/
theorem C1_counterexample :
    trySpecs issub0 cb1.sig false (sortDesc si1.signatures) = some ([pReq], 2)
    ∧ (connect issub0 si1 (.callable cb1)).2.slots = [(.strong 7, 2)]
    ∧ [pReq].length = 1 ∧ ¬((2 : Nat) = 1)
    ∧ ((emitW env0 5 0 [5, 6] wC1).map fun p => p.1.trace)
        = some [TraceEntry.invoked (.strong 7) [5, 6] (some 0)]
    ∧ 1 < [5, 6].length := by
  decide

/-- C1 (amended): for every successful `connect(callback)` that appends
a subscription, the appended subscription stores the callback's own
maximum acceptable positional-argument count (from
`_acceptable_posarg_range`) as its max-arity; the matched signature is
found by trying the declared signatures in order of decreasing parameter
count and satisfies `minargs ≤ len(spec)`; consequently `emit` never
passes the callback more arguments than the callback itself accepts
(its arguments are truncated to that stored maximum). -/
theorem C1_amended_stored_arity (issub : Nat → Nat → Bool) (si : SignalInstance)
    (c : PyCallable) (check_types : Bool) (unique : UniqueArg) (si' : SignalInstance)
    (h : connect issub si (.callable c) check_types unique = (none, si')) :
    si' = si ∨
    ∃ spec minargs maxargs,
      trySpecs issub c.sig check_types (sortDesc si.signatures) = some (spec, maxargs)
      ∧ acceptable_posarg_range c.sig = .ok (minargs, maxargs)
      ∧ minargs ≤ spec.length
      ∧ spec ∈ si.signatures
      ∧ si'.slots = si.slots ++ [(normalize_slot (.py c), maxargs)] := by
  simp only [connect] at h
  by_cases hu : (unique.truthy && containsSlot si (.py c)) = true
  · rw [if_pos hu] at h
    by_cases hr : unique.isRaiseStr = true
    · rw [if_pos hr] at h
      simp at h
    · rw [if_neg hr] at h
      simp only [Prod.mk.injEq] at h
      exact Or.inl h.2.symm
  · rw [if_neg hu] at h
    split at h
    · simp at h
    · rename_i spec maxargs ht
      have h2 : ({ si with slots := si.slots ++ [(normalize_slot (.py c), maxargs)] }
          : SignalInstance) = si' := congrArg Prod.snd h
      obtain ⟨hmem, mn, hrange, hle⟩ :=
        trySpecs_some_spec issub c.sig check_types _ spec maxargs ht
      exact Or.inr ⟨spec, mn, maxargs, ht, hrange, hle, (mem_sortDesc _ _).mp hmem,
        by rw [← h2]⟩

theorem C1_witness :
    (connect issub0 si1 (.callable cb1) false (.bool false)).2 = si1 ∨
    ∃ spec minargs maxargs,
      trySpecs issub0 cb1.sig false (sortDesc si1.signatures) = some (spec, maxargs)
      ∧ acceptable_posarg_range cb1.sig = .ok (minargs, maxargs)
      ∧ minargs ≤ spec.length
      ∧ spec ∈ si1.signatures
      ∧ (connect issub0 si1 (.callable cb1) false (.bool false)).2.slots
          = si1.slots ++ [(normalize_slot (.py cb1), maxargs)] :=
  C1_amended_stored_arity issub0 si1 cb1 false (.bool false)
    (connect issub0 si1 (.callable cb1) false (.bool false)).2 (by decide)

/-! ### Helper lemmas about emission -/

theorem resolveCb_with_trace (env : Env) (w : World) (t : List TraceEntry)
    (c : NormedCallback) : resolveCb env { w with trace := t } c = resolveCb env w c := rfl

theorem resolveCb_with_emitter (env : Env) (w : World) (e : Option SigId)
    (c : NormedCallback) :
    resolveCb env { w with currentEmitter := e } c = resolveCb env w c := rfl

theorem setInst_self (w : World) (sid : SigId) (si : SignalInstance) :
    (setInst w sid si).instances sid = si := by
  simp [setInst]

theorem pruneAll_currentEmitter (sid : SigId) :
    ∀ (rem : List NormedCallback) (w : World),
      (pruneAll sid rem w).currentEmitter = w.currentEmitter := by
  intro rem
  induction rem with
  | nil => intro w; rfl
  | cons s rs ih =>
    intro w
    show (pruneAll sid rs _).currentEmitter = _
    rw [ih]
    rfl

theorem pruneAll_trace (sid : SigId) :
    ∀ (rem : List NormedCallback) (w : World), (pruneAll sid rem w).trace = w.trace := by
  intro rem
  induction rem with
  | nil => intro w; rfl
  | cons s rs ih =>
    intro w
    show (pruneAll sid rs _).trace = _
    rw [ih]
    rfl

theorem pruneAll_slots (sid : SigId) :
    ∀ (rem : List NormedCallback) (w : World),
      (pruneAll sid rem w).instances sid
        = { w.instances sid with
            slots := List.foldl (fun acc s => eraseFirstBy s acc) (w.instances sid).slots rem } := by
  intro rem
  induction rem with
  | nil => intro w; rfl
  | cons s rs ih =>
    intro w
    show (pruneAll sid rs (setInst w sid ((disconnect (w.instances sid)
        (some (.normed s)) true).2))).instances sid = _
    rw [ih, setInst_self, disconnect_state]
    rfl

theorem foldl_eraseFirstBy_cons (liveP : NormedCallback → Bool) (p : StoredSlot)
    (hp : liveP p.1 = true) :
    ∀ (ds : List NormedCallback), (∀ d ∈ ds, liveP d = false) →
    ∀ X, List.foldl (fun acc s => eraseFirstBy s acc) (p :: X) ds
        = p :: List.foldl (fun acc s => eraseFirstBy s acc) X ds := by
  intro ds
  induction ds with
  | nil => intro _ X; rfl
  | cons d ds' ih =>
    intro hd X
    have hne : ¬(p.1 = d) := by
      intro he
      have h1 := hd d (List.mem_cons_self _ _)
      rw [← he, hp] at h1
      exact Bool.noConfusion h1
    show List.foldl _ (eraseFirstBy d (p :: X)) ds' = p :: List.foldl _ (eraseFirstBy d X) ds'
    simp only [eraseFirstBy, if_neg hne]
    exact ih (fun e he => hd e (List.mem_cons_of_mem _ he)) (eraseFirstBy d X)

theorem foldl_eraseFirstBy_filter (liveP : NormedCallback → Bool) :
    ∀ l : List StoredSlot,
      List.foldl (fun acc s => eraseFirstBy s acc) l
          ((l.filter fun p => !liveP p.1).map Prod.fst)
        = l.filter fun p => liveP p.1 := by
  intro l
  induction l with
  | nil => rfl
  | cons p rest ih =>
    by_cases hp : liveP p.1 = true
    · have h1 : ((p :: rest).filter fun q => !liveP q.1)
          = rest.filter fun q => !liveP q.1 := by
        simp [List.filter_cons, hp]
      rw [h1]
      have hds : ∀ d ∈ ((rest.filter fun q => !liveP q.1).map Prod.fst), liveP d = false := by
        intro d hd
        obtain ⟨q, hq, hqd⟩ := List.mem_map.mp hd
        have h2 := (List.mem_filter.mp hq).2
        rw [← hqd]
        revert h2
        cases liveP q.1 <;> simp
      rw [foldl_eraseFirstBy_cons liveP p hp _ hds rest, ih]
      simp [List.filter_cons, hp]
    · have hp' : liveP p.1 = false := by revert hp; cases liveP p.1 <;> simp
      have h1 : ((p :: rest).filter fun q => !liveP q.1)
          = p :: rest.filter fun q => !liveP q.1 := by
        simp [List.filter_cons, hp']
      rw [h1, List.map_cons, List.foldl_cons]
      have he : eraseFirstBy p.1 (p :: rest) = rest := by
        simp [eraseFirstBy]
      rw [he, ih]
      simp [List.filter_cons, hp']

theorem liveEvents_cons_dead (env : Env) (w : World) (args : List Nat) (ce : Option SigId)
    (p : StoredSlot) (rest : List StoredSlot) (h : resolveCb env w p.1 = none) :
    liveEvents env w args ce (p :: rest) = liveEvents env w args ce rest := by
  simp [liveEvents, List.filter_cons, h]

theorem liveEvents_cons_live (env : Env) (w : World) (args : List Nat) (ce : Option SigId)
    (p : StoredSlot) (rest : List StoredSlot) (body : List CbStep)
    (h : resolveCb env w p.1 = some body) :
    liveEvents env w args ce (p :: rest)
      = TraceEntry.invoked p.1 (args.take p.2) ce :: liveEvents env w args ce rest := by
  simp [liveEvents, List.filter_cons, h]

theorem deadOf_cons_dead (env : Env) (w : World) (p : StoredSlot) (rest : List StoredSlot)
    (h : resolveCb env w p.1 = none) :
    deadOf env w (p :: rest) = p.1 :: deadOf env w rest := by
  simp [deadOf, List.filter_cons, h]

theorem deadOf_cons_live (env : Env) (w : World) (p : StoredSlot) (rest : List StoredSlot)
    (body : List CbStep) (h : resolveCb env w p.1 = some body) :
    deadOf env w (p :: rest) = deadOf env w rest := by
  simp [deadOf, List.filter_cons, h]

theorem runTask_steps_nil (env : Env) (f : Nat) (w : World) (hf : 1 ≤ f) :
    runTask env f (.steps []) w = some ⟨w, [], false⟩ := by
  obtain ⟨f2, rfl⟩ : ∃ f2, f = f2 + 1 := ⟨f - 1, by omega⟩
  rfl

theorem liveEvents_with_trace (env : Env) (w : World) (t : List TraceEntry)
    (args : List Nat) (ce : Option SigId) (l : List StoredSlot) :
    liveEvents env { w with trace := t } args ce l = liveEvents env w args ce l := rfl

theorem deadOf_with_trace (env : Env) (w : World) (t : List TraceEntry)
    (l : List StoredSlot) : deadOf env { w with trace := t } l = deadOf env w l := rfl

theorem liveEvents_with_emitter (env : Env) (w : World) (e : Option SigId)
    (args : List Nat) (ce : Option SigId) (l : List StoredSlot) :
    liveEvents env { w with currentEmitter := e } args ce l = liveEvents env w args ce l := rfl

theorem deadOf_with_emitter (env : Env) (w : World) (e : Option SigId)
    (l : List StoredSlot) :
    deadOf env { w with currentEmitter := e } l = deadOf env w l := rfl

theorem runTask_loop_tame (env : Env) (sid : SigId) (args : List Nat) :
    ∀ (k fuel i : Nat) (rem : List NormedCallback) (w : World) (slots : List StoredSlot),
      (w.instances sid).slots = slots →
      slots.length - i = k →
      k + 1 ≤ fuel →
      (∀ p ∈ slots, resolveCb env w p.1 = none ∨ resolveCb env w p.1 = some []) →
      runTask env fuel (.loop sid args i rem) w =
        some ⟨{ w with trace := w.trace ++
                  liveEvents env w args w.currentEmitter (slots.drop i) },
              rem ++ deadOf env w (slots.drop i), false⟩ := by
  intro k
  induction k with
  | zero =>
    intro fuel i rem w slots hslots hk hf htame
    subst hslots
    obtain ⟨f, rfl⟩ : ∃ f, fuel = f + 1 := ⟨fuel - 1, by omega⟩
    have hge : ¬ i < ((w.instances sid).slots).length := by omega
    have hdrop : ((w.instances sid).slots).drop i = [] := List.drop_eq_nil_of_le (by omega)
    simp only [runTask]
    rw [dif_neg hge, hdrop]
    simp [liveEvents, deadOf]
  | succ k ih =>
    intro fuel i rem w slots hslots hk hf htame
    subst hslots
    obtain ⟨f, rfl⟩ : ∃ f, fuel = f + 1 := ⟨fuel - 1, by omega⟩
    have hlt : i < ((w.instances sid).slots).length := by omega
    have hdropc : ((w.instances sid).slots).drop i
        = ((w.instances sid).slots).get ⟨i, hlt⟩ :: ((w.instances sid).slots).drop (i + 1) := by
      rw [List.drop_eq_getElem_cons hlt]
      rfl
    have hmem := List.get_mem ((w.instances sid).slots) i hlt
    simp only [runTask]
    rw [dif_pos hlt]
    rcases htame _ hmem with hdead | hlive
    · simp only [hdead]
      rw [ih f (i + 1) (rem ++ [(((w.instances sid).slots).get ⟨i, hlt⟩).1]) w
        ((w.instances sid).slots) rfl (by omega) (by omega) htame]
      rw [hdropc, liveEvents_cons_dead env w args _ _ _ hdead,
        deadOf_cons_dead env w _ _ hdead]
      simp [List.append_assoc]
    · simp only [hlive]
      rw [runTask_steps_nil env f _ (by omega)]
      simp only [Option.some_bind, Bool.false_eq_true, if_false]
      set w1 : World := { w with trace := w.trace ++
        [TraceEntry.invoked (((w.instances sid).slots).get ⟨i, hlt⟩).1
          (args.take (((w.instances sid).slots).get ⟨i, hlt⟩).2) w.currentEmitter] } with hw1
      have htame1 : ∀ p ∈ (w.instances sid).slots,
          resolveCb env w1 p.1 = none ∨ resolveCb env w1 p.1 = some [] := by
        intro p hp
        rw [hw1, resolveCb_with_trace, resolveCb_with_trace]
        exact htame p hp
      rw [ih f (i + 1) rem w1 ((w.instances sid).slots) (by rw [hw1]) (by omega) (by omega)
        htame1]
      rw [hdropc, liveEvents_cons_live env w args _ _ _ _ hlive,
        deadOf_cons_live env w _ _ _ hlive]
      rw [hw1]
      simp [List.append_assoc, liveEvents_with_trace, deadOf_with_trace]

theorem runTask_emit_tame (env : Env) (sid : SigId) (args : List Nat) (w : World)
    (fuel : Nat) (slots : List StoredSlot)
    (hslots : (w.instances sid).slots = slots)
    (hb : (w.instances sid).isBlocked = false)
    (hf : slots.length + 2 ≤ fuel)
    (htame : ∀ p ∈ slots, resolveCb env w p.1 = none ∨ resolveCb env w p.1 = some []) :
    runTask env fuel (.emit sid args) w =
      some ⟨pruneAll sid (deadOf env w slots)
              { w with trace := w.trace ++ liveEvents env w args (some sid) slots },
            [], false⟩ := by
  subst hslots
  obtain ⟨f, rfl⟩ : ∃ f, fuel = f + 1 := ⟨fuel - 1, by omega⟩
  simp only [runTask, hb, Bool.false_eq_true, if_false]
  have htame1 : ∀ p ∈ (w.instances sid).slots,
      resolveCb env { w with currentEmitter := some sid } p.1 = none
      ∨ resolveCb env { w with currentEmitter := some sid } p.1 = some [] := by
    intro p hp
    rw [resolveCb_with_emitter, resolveCb_with_emitter]
    exact htame p hp
  rw [runTask_loop_tame env sid args ((w.instances sid).slots).length f 0 []
    { w with currentEmitter := some sid } ((w.instances sid).slots) rfl (by omega) (by omega)
    htame1]
  simp only [Option.some_bind, Bool.false_eq_true, if_false]
  simp [List.drop_zero, liveEvents_with_emitter, deadOf_with_emitter]

theorem runTask_emit_restores (env : Env) (fuel : Nat) (sid : SigId) (args : List Nat)
    (w : World) (o : TaskOut) (h : runTask env fuel (.emit sid args) w = some o) :
    o.w.currentEmitter = w.currentEmitter := by
  cases fuel with
  | zero => simp [runTask] at h
  | succ f =>
    simp only [runTask] at h
    by_cases hb : (w.instances sid).isBlocked = true
    · rw [if_pos hb] at h
      simp only [Option.some.injEq] at h
      subst h
      rfl
    · rw [if_neg hb] at h
      cases hr : runTask env f (.loop sid args 0 []) { w with currentEmitter := some sid } with
      | none => rw [hr] at h; simp at h
      | some o2 =>
        rw [hr] at h
        simp only [Option.some_bind] at h
        by_cases hraised : o2.raised = true
        · rw [if_pos hraised] at h
          simp only [Option.some.injEq] at h
          subst h
          rfl
        · rw [if_neg hraised] at h
          simp only [Option.some.injEq] at h
          subst h
          show (pruneAll sid o2.rem _).currentEmitter = _
          rw [pruneAll_currentEmitter]

theorem foldl_eraseFirstBy_deadOf (env : Env) (w : World) (l : List StoredSlot) :
    List.foldl (fun acc s => eraseFirstBy s acc) l (deadOf env w l)
      = l.filter fun p => !(resolveCb env w p.1).isNone := by
  have h := foldl_eraseFirstBy_filter (fun c => !(resolveCb env w c).isNone) l
  simp only [Bool.not_not] at h
  exact h

/-- C4: on an unblocked dispatcher whose subscription list holds X, Y, Z
in that insertion order, all alive with plain (empty-bodied) callbacks,
`emit(*args)` invokes X, Y, Z in exactly that order, each invocation
receiving `args` truncated to that subscription's stored max-arity, and
no exception is raised. -/
theorem C4_emission_order (env : Env) (sid : SigId) (args : List Nat) (w : World)
    (x y z : NormedCallback) (mx my mz : Nat) (fuel : Nat)
    (hslots : (w.instances sid).slots = [(x, mx), (y, my), (z, mz)])
    (hb : (w.instances sid).isBlocked = false)
    (hx : resolveCb env w x = some []) (hy : resolveCb env w y = some [])
    (hz : resolveCb env w z = some []) (hf : 5 ≤ fuel) :
    emitW env fuel sid args w = some
      ({ w with trace := w.trace ++
          [TraceEntry.invoked x (args.take mx) (some sid),
           TraceEntry.invoked y (args.take my) (some sid),
           TraceEntry.invoked z (args.take mz) (some sid)] }, false) := by
  have htame : ∀ p ∈ ([(x, mx), (y, my), (z, mz)] : List StoredSlot),
      resolveCb env w p.1 = none ∨ resolveCb env w p.1 = some [] := by
    intro p hp
    simp only [List.mem_cons, List.not_mem_nil, or_false] at hp
    rcases hp with rfl | rfl | rfl
    · exact Or.inr hx
    · exact Or.inr hy
    · exact Or.inr hz
  unfold emitW
  rw [runTask_emit_tame env sid args w fuel _ hslots hb
    (by simp only [List.length_cons, List.length_nil]; omega) htame]
  have hdead : deadOf env w [(x, mx), (y, my), (z, mz)] = [] := by
    simp [deadOf, List.filter_cons, hx, hy, hz]
  have hlive : liveEvents env w args (some sid) [(x, mx), (y, my), (z, mz)]
      = [TraceEntry.invoked x (args.take mx) (some sid),
         TraceEntry.invoked y (args.take my) (some sid),
         TraceEntry.invoked z (args.take mz) (some sid)] := by
    simp [liveEvents, List.filter_cons, hx, hy, hz]
  rw [hdead, hlive]
  rfl

theorem C4_witness :
    emitW env0 9 0 [42] wC4 = some
      ({ wC4 with trace := wC4.trace ++
          [TraceEntry.invoked (.strong 1) (List.take 0 [42]) (some 0),
           TraceEntry.invoked (.strong 2) (List.take 1 [42]) (some 0),
           TraceEntry.invoked (.strong 3) (List.take 1 [42]) (some 0)] }, false) :=
  C4_emission_order env0 0 [42] wC4 (.strong 1) (.strong 2) (.strong 3) 0 1 1 9
    (by decide) (by decide) (by decide) (by decide) (by decide) (by decide)

/-- C5: on an unblocked dispatcher all of whose callbacks are either
plain live ones or dead references, holding a bound-method subscription
whose receiver has been destroyed, `emit` returns without raising, the
dead reference is never invoked (only live slots produce invocation
events), and the dead subscription has been removed from the list by the
time `emit` returns. -/
theorem C5_dead_receiver_pruned (env : Env) (sid : SigId) (args : List Nat) (w : World)
    (fuel : Nat) (r : Nat) (nm : String) (m : Nat)
    (hb : (w.instances sid).isBlocked = false)
    (hf : ((w.instances sid).slots).length + 2 ≤ fuel)
    (htame : ∀ p ∈ (w.instances sid).slots,
        resolveCb env w p.1 = none ∨ resolveCb env w p.1 = some [])
    (hmem : (NormedCallback.weakMethod r nm, m) ∈ (w.instances sid).slots)
    (hdead : w.alive r = false) :
    ∃ w', emitW env fuel sid args w = some (w', false)
      ∧ (w'.instances sid).slots
          = ((w.instances sid).slots).filter (fun p => !(resolveCb env w p.1).isNone)
      ∧ (NormedCallback.weakMethod r nm, m) ∉ (w'.instances sid).slots
      ∧ w'.trace = w.trace ++ liveEvents env w args (some sid) ((w.instances sid).slots)
      ∧ ∀ a e, TraceEntry.invoked (NormedCallback.weakMethod r nm) a e
          ∉ liveEvents env w args (some sid) ((w.instances sid).slots) := by
  have hrdead : resolveCb env w (.weakMethod r nm) = none := by
    simp [resolveCb, hdead]
  set W1 : World := ({ w with trace := w.trace ++ liveEvents env w args (some sid) ((w.instances sid).slots) } : World) with hW1
  set w' : World := pruneAll sid (deadOf env w ((w.instances sid).slots)) W1 with hw'
  have hrun : emitW env fuel sid args w = some (w', false) := by
    unfold emitW
    rw [runTask_emit_tame env sid args w fuel _ rfl hb hf htame]
    rfl
  have hslots' : (w'.instances sid).slots
      = ((w.instances sid).slots).filter fun p => !(resolveCb env w p.1).isNone := by
    rw [hw', pruneAll_slots]
    show List.foldl (fun acc s => eraseFirstBy s acc)
        ((w.instances sid).slots) (deadOf env w ((w.instances sid).slots)) = _
    exact foldl_eraseFirstBy_deadOf env w _
  have htrace' : w'.trace
      = w.trace ++ liveEvents env w args (some sid) ((w.instances sid).slots) := by
    rw [hw', pruneAll_trace, hW1]
  have hnotin : (NormedCallback.weakMethod r nm, m) ∉ (w'.instances sid).slots := by
    rw [hslots']
    intro hmem2
    have h2 := (List.mem_filter.mp hmem2).2
    rw [hrdead] at h2
    simp at h2
  have hnoinv : ∀ a e, TraceEntry.invoked (NormedCallback.weakMethod r nm) a e
      ∉ liveEvents env w args (some sid) ((w.instances sid).slots) := by
    intro a e hin
    unfold liveEvents at hin
    obtain ⟨q, hq, hqe⟩ := List.mem_map.mp hin
    simp only [TraceEntry.invoked.injEq] at hqe
    have h2 := (List.mem_filter.mp hq).2
    rw [hqe.1, hrdead] at h2
    simp at h2
  exact ⟨w', hrun, hslots', hnotin, htrace', hnoinv⟩

theorem C5_witness :
    ∃ w', emitW env0 10 0 [42] w5 = some (w', false)
      ∧ (w'.instances 0).slots
          = ((w5.instances 0).slots).filter (fun p => !(resolveCb env0 w5 p.1).isNone)
      ∧ (NormedCallback.weakMethod 8 "m", 1) ∉ (w'.instances 0).slots
      ∧ w'.trace = w5.trace ++ liveEvents env0 w5 [42] (some 0) ((w5.instances 0).slots)
      ∧ ∀ a e, TraceEntry.invoked (NormedCallback.weakMethod 8 "m") a e
          ∉ liveEvents env0 w5 [42] (some 0) ((w5.instances 0).slots) :=
  C5_dead_receiver_pruned env0 0 [42] w5 10 8 "m" 1 (by decide) (by decide)
    (by decide) (by decide) (by decide)

/-- C6: nested emission.  (1) In full generality, every completed `emit`
(raising or not) restores `Signal._current_emitter` to its value before
the call — so an inner `emit` on S2, nested inside an emission on S1,
leaves S1 as the current emitter again as soon as it returns, even when
the nested emission raises.  (2) Concretely, with S1 = instance 0 (owner
100) and S2 = instance 1 (owner 200): a subscriber of S1 that emits S2
and then queries the emitter sees S2 (and S2's owner via `sender()`)
recorded during the nested emission and S1 (owner 100) immediately
after it returns.  (3) When the nested emission raises, the exception
propagates and the emitter is still restored.  (4) The same holds for
S1 = S2 (self-nesting on channel 0). -/
theorem C6_nested_emitter :
    (∀ (env : Env) (fuel : Nat) (sid : SigId) (args : List Nat) (w : World) (o : TaskOut),
        runTask env fuel (.emit sid args) w = some o →
        o.w.currentEmitter = w.currentEmitter)
    ∧ ((emitW env6 10 0 [3] w6).map fun p => (p.1.trace, p.1.currentEmitter, p.2))
        = some ([TraceEntry.invoked x6 [3] (some 0),
                 TraceEntry.invoked y6 [7] (some 1),
                 TraceEntry.observed (some 1) (some 200),
                 TraceEntry.observed (some 0) (some 100)], none, false)
    ∧ ((emitW env6r 10 0 [3] w6).map fun p => (p.1.currentEmitter, p.2)) = some (none, true)
    ∧ ((emitW env6s 12 0 [3] w6s).map fun p =>
          (p.1.trace, (p.1.instances 0).slots, p.1.currentEmitter, p.2))
        = some ([TraceEntry.invoked x6 [3] (some 0),
                 TraceEntry.invoked y6 [7] (some 0),
                 TraceEntry.observed (some 0) (some 100),
                 TraceEntry.observed (some 0) (some 100)],
                [(y6, 1)], none, false) := by
  refine ⟨fun env fuel sid args w o h => runTask_emit_restores env fuel sid args w o h,
    ?_, ?_, ?_⟩ <;> decide

theorem C6_witness :
    ((runTask env6 10 (.emit 0 [3]) w6).map fun o => o.w.currentEmitter)
      = some w6.currentEmitter := by
  cases h : runTask env6 10 (.emit 0 [3]) w6 with
  | none =>
    have hs : (runTask env6 10 (.emit 0 [3]) w6).isSome = true := by decide
    rw [h] at hs
    simp at hs
  | some o =>
    simp only [Option.map_some', Option.some.injEq]
    exact C6_nested_emitter.1 env6 10 0 [3] w6 o h
